import Mathlib

/-!
Verification development for the `typer` CLI (src/src/main.cpp).

The program is a linear pipeline: argument validation, dictionary load,
word filtering and sampling, a timed typing session and error scoring.
We embed each stage as an executable Lean function translated directly
from the C++ source, and prove the frozen claims about it.

Conventions of the embedding:
* A word / string is a `List Char` (`std::pmr::basic_string<char>`).
* File I/O is modelled by an `Option (List Char)`: `none` when the stream
  fails to open, `some content` for the raw character content of the file.
* The Mersenne-twister random source is modelled by an arbitrary function
  `rand : Nat → Nat`; draw `i` of the sampler uses `rand i` reduced modulo
  the size of the uniform range, exactly as `uniform_int_distribution`
  turns raw generator output into a bounded draw.
* Timing (`high_resolution_clock`) and terminal colours are irrelevant to
  every claim and are not modelled.
-/

namespace Typer

abbrev Word := List Char

/-- The null character `charT()` that `std::basic_string::operator[]`
returns for an index equal to `size()` (the terminator). -/
def nullChar : Char := Char.ofNat 0

/-- Indexing `s[i]` of `std::basic_string`: the character at index `i`, with the
terminator `charT()` when `i` equals the size (the only out-of-range
index the C++ program ever uses is `0` on an empty string, which reads
the terminator). -/
def char_at (s : List Char) (i : Nat) : Char :=
  s.getD i nullChar

/-- Semantics of the `std::getline` loop: split raw file content into lines.
Each `'\n'` terminates a line (and is consumed); a final line without a
terminating newline is still produced; a trailing newline does not
produce an extra empty line, because the next `getline` immediately hits
end-of-file with nothing read and fails. -/
def split_lines (cs : List Char) : List Word :=
  match cs with
  | [] => []
  | c :: cs' =>
    if c = '\n' then [] :: split_lines cs'
    else
      match split_lines cs' with
      | [] => [[c]]
      | l :: ls => (c :: l) :: ls

/-- Model of `tpr::read_dictionary` (main.cpp lines 167-189): returns `none` when
the stream cannot be opened, otherwise every `getline` result in file
order.  `words` is only a `reserve` capacity hint in the source and has
no observable effect. -/
def read_dictionary (file : Option (List Char)) (words : Nat) :
    Option (List Word) :=
  match file with
  | none => none
  | some content => some (split_lines content)

/-- Model of `tpr::report_error` (lines 191-199): prints and returns whether the
two characters differ. -/
def report_error (lhs rhs : Char) : Bool :=
  lhs != rhs

/-- The length filter `filter_function` (lines 295-298):
`(word.size() <= max_length or not max_length) and
 (word.size() >= min_length or not min_length)`. -/
def filter_function (min_length max_length : Nat) (word : Word) : Bool :=
  (decide (word.length ≤ max_length) || decide (max_length = 0)) &&
  (decide (word.length ≥ min_length) || decide (min_length = 0))

/-- One step of `ranges::views::sample` (selection sampling / Knuth's
Algorithm S, which range-v3 uses over a forward range): walk the base
range; at an element with `remaining` elements left (current included)
and `need` still to pick, draw uniformly below `remaining` and take the
element when the draw is below `need`.  `idx` numbers the draws so an
arbitrary `rand : Nat → Nat` stands for the generator stream. -/
def sample_go (rand : Nat → Nat) (idx need : Nat) : List Word → List Word
  | [] => []
  | w :: ws =>
    if need = 0 then []
    else if rand idx % (ws.length + 1) < need then
      w :: sample_go rand (idx + 1) (need - 1) ws
    else
      sample_go rand (idx + 1) need ws

/-- Model of `ranges::views::sample(amount, rng)` on a materialised pool. -/
def sample (rand : Nat → Nat) (amount : Nat) (pool : List Word) : List Word :=
  sample_go rand 0 amount pool

/-- The selection pipeline of `main` (lines 305-311):
`dictionary | take(top) | filter(filter_function) | sample(amount, rng)
| join(' ')`, materialised to a single string. -/
def build_prompt (rand : Nat → Nat) (amount top min_length max_length : Nat)
    (dictionary : List Word) : List Char :=
  List.intercalate [' ']
    (sample rand amount
      ((dictionary.take top).filter (filter_function min_length max_length)))

/-- The length-difference error term (lines 330-332), exactly as written:
`filtered.size() > (buffer.size() + 1) ? filtered.size() - buffer.size() + 1
: (buffer.size() + 1) - filtered.size()`.  Note the then-branch is
`(flen - blen) + 1`, not `flen - (blen + 1)`. -/
def length_error (flen blen : Nat) : Nat :=
  if flen > blen + 1 then flen - blen + 1 else (blen + 1) - flen

/-- The positional error term (lines 334-339): fold over
`zip(filtered | drop(1), buffer)`, adding one per mismatching pair. -/
def positional_term (filtered typed : List Char) : Nat :=
  ((filtered.drop 1).zip typed).countP (fun p => report_error p.1 p.2)

/-- The whole error count of the scoring session (lines 327-339): the
first-character comparison against the discarded keystroke `c`, plus the
length-difference term, plus the positional fold. -/
def score (filtered : List Char) (c : Char) (typed : List Char) : Nat :=
  (if report_error (char_at filtered 0) c then 1 else 0)
  + length_error filtered.length typed.length
  + positional_term filtered typed

/-- Observable outcome of one run of `main`. -/
structure Outcome where
  exit_code : Nat
  load_attempted : Bool
  read_error_reported : Bool
  scoring_ran : Bool
  prompt : Option (List Char)
  errors : Option Nat
deriving DecidableEq

/-- Model of `main` after successful argument parsing (lines 256-356), as a
function of the parsed flag values, the file system (`path_exists`, and
`file` as seen by `read_dictionary`), the RNG stream, and the user's
input (discarded first keystroke `first_char` and the typed line).

The validation sequence mirrors the source exactly, including the slip
at lines 268-272 where the branch that prints the `--top = 0` message
tests `not amount` a second time instead of `not top`.  On read failure
the `.or_else` branch reports and `main` still falls through to
`return 0`. -/
def main_model (amount top min_length max_length dictionary_size : Nat)
    (path_exists : Bool) (file : Option (List Char)) (rand : Nat → Nat)
    (first_char : Char) (typed : List Char) : Outcome :=
  if amount = 0 then ⟨1, false, false, false, none, none⟩
  else if amount = 0 then ⟨1, false, false, false, none, none⟩
  else if min_length > max_length ∧ max_length ≠ 0 then
    ⟨1, false, false, false, none, none⟩
  else if path_exists = false then ⟨1, false, false, false, none, none⟩
  else
    match read_dictionary file dictionary_size with
    | none => ⟨0, true, true, false, none, none⟩
    | some dictionary =>
      let filtered := build_prompt rand amount top min_length max_length dictionary
      ⟨0, true, false, true, some filtered, some (score filtered first_char typed)⟩

/-- A fixed all-zero RNG stream, used to instantiate model runs on
concrete inputs. -/
def rand0 : Nat → Nat := fun _ => 0

end Typer

namespace Typer

/-- A dictionary file holding the given words one per line, each line
terminated by a newline. -/
def encode_file (lines : List Word) : List Char :=
  lines.flatMap (fun l => l ++ ['\n'])

/-! ## Helper lemmas -/

/-- The sampler never reorders: whatever the RNG stream does, its output
is an order-preserving subsequence of the pool it walks. -/
theorem sample_go_sublist (rand : Nat → Nat) (idx need : Nat) (l : List Word) :
    (sample_go rand idx need l).Sublist l := by
  induction l generalizing idx need with
  | nil => simp [sample_go]
  | cons w ws ih =>
    rw [sample_go]
    split
    · exact List.nil_sublist _
    · split
      · exact List.Sublist.cons₂ w (ih (idx + 1) (need - 1))
      · exact List.Sublist.cons w (ih (idx + 1) need)

/-- Zipping a list with itself yields no mismatching pair. -/
theorem zip_self_countP (l : List Char) :
    (l.zip l).countP (fun p => report_error p.1 p.2) = 0 := by
  induction l with
  | nil => rfl
  | cons c cs ih =>
    rw [List.zip_cons_cons, List.countP_cons, ih]
    simp [report_error]

/-- Dropping the head shifts indexed access by one. -/
theorem char_at_drop_one (l : List Char) (i : Nat) :
    char_at (l.drop 1) i = char_at l (i + 1) := by
  cases l <;> rfl

/-- Taking the tail shifts indexed access by one. -/
theorem char_at_tail (l : List Char) (i : Nat) :
    char_at l.tail i = char_at l (i + 1) := by
  cases l <;> rfl

@[simp] theorem char_at_cons_zero (x : Char) (xs : List Char) :
    char_at (x :: xs) 0 = x := rfl

@[simp] theorem char_at_cons_succ (x : Char) (xs : List Char) (i : Nat) :
    char_at (x :: xs) (i + 1) = char_at xs i := rfl

/-- Counting mismatching pairs of a zip equals counting mismatching
indices below the length of the shorter list. -/
theorem zip_countP_eq_range_countP (a b : List Char) :
    (a.zip b).countP (fun p => report_error p.1 p.2)
      = (List.range (min a.length b.length)).countP
          (fun i => report_error (char_at a i) (char_at b i)) := by
  induction a generalizing b with
  | nil => simp
  | cons x xs ih =>
    cases b with
    | nil => simp
    | cons y ys =>
      rw [List.zip_cons_cons, List.countP_cons]
      have hmin : min (x :: xs).length (y :: ys).length
          = min xs.length ys.length + 1 := by
        simp [Nat.succ_min_succ]
      rw [hmin, List.range_succ_eq_map, List.countP_cons, List.countP_map, ih ys]
      have hcong : List.countP
            ((fun i => report_error (char_at (x :: xs) i) (char_at (y :: ys) i)) ∘ Nat.succ)
            (List.range (min xs.length ys.length))
          = List.countP (fun i => report_error (char_at xs i) (char_at ys i))
            (List.range (min xs.length ys.length)) := by
        apply List.countP_congr
        intro i hi
        simp [Function.comp, Nat.succ_eq_add_one]
      rw [hcong]
      simp

/-- Reading one newline-terminated line off the front of the content. -/
theorem split_lines_line (l : Word) (rest : List Char) (h : '\n' ∉ l) :
    split_lines (l ++ '\n' :: rest) = l :: split_lines rest := by
  induction l with
  | nil => simp [split_lines]
  | cons c cs ih =>
    have hc : ¬ c = '\n' := fun hc => h (hc ▸ List.mem_cons_self c cs)
    have hcs : '\n' ∉ cs := fun hm => h (List.mem_cons_of_mem c hm)
    rw [List.cons_append, split_lines]
    simp only [if_neg hc, ih hcs]

/-- The getline loop recovers exactly the encoded lines. -/
theorem split_lines_encode (lines : List Word) (h : ∀ l ∈ lines, '\n' ∉ l) :
    split_lines (encode_file lines) = lines := by
  induction lines with
  | nil => rfl
  | cons l ls ih =>
    have h1 : '\n' ∉ l := h l (List.mem_cons_self l ls)
    have h2 : ∀ x ∈ ls, '\n' ∉ x := fun x hx => h x (List.mem_cons_of_mem l hx)
    show split_lines ((l ++ ['\n']) ++ encode_file ls) = l :: ls
    rw [List.append_assoc, List.singleton_append, split_lines_line l _ h1, ih h2]

end Typer

namespace Typer

/-! ## Claims -/

/-- C1 (counterexample): the length-difference term the code adds is not
`abs(len(Prompt) - (len(Typed)+1))`.  At prompt length 5 and typed length
2 the code adds `5 - 2 + 1 = 4` (the then-branch of lines 330-332 lacks
the parentheses around `buffer.size() + 1`), while the absolute
difference is `abs(5 - 3) = 2`. -/
theorem C1_length_term_counterexample :
    ¬ length_error 5 2 = ((5 : Int) - ((2 : Int) + 1)).natAbs := by
  decide

/-- C1 (amended): the length-difference term is added unconditionally to
the error count, as a separate summand independent of the first-character
and positional comparisons; its value is
`abs(len(Prompt) - (len(Typed)+1))` when `len(Prompt) ≤ len(Typed)+1`,
and `abs(len(Prompt) - (len(Typed)+1)) + 2` (that is,
`len(Prompt) - len(Typed) + 1`) when `len(Prompt) > len(Typed)+1`. -/
theorem C1_length_term_amended :
    (∀ (F T : List Char) (c : Char),
      score F c T = (if report_error (char_at F 0) c then 1 else 0)
        + length_error F.length T.length + positional_term F T)
    ∧ ∀ flen blen : Nat,
      length_error flen blen
        = ((flen : Int) - ((blen : Int) + 1)).natAbs
          + (if blen + 1 < flen then 2 else 0) := by
  refine ⟨fun F T c => rfl, fun flen blen => ?_⟩
  unfold length_error
  split <;> omega

/-- C2 (code misbehaves): with `--amount` nonzero (25) and `--top` = 0
the program does not exit with code 1: the branch at lines 268-272 tests
`not amount` a second time instead of `not top`, so the run proceeds,
prints an empty prompt, scores the (empty) test and returns 0. -/
theorem C2_top_zero_not_rejected :
    main_model 25 0 2 0 20000 true (some ("a\nb\n".toList)) rand0 'x' []
      = ⟨0, true, false, true, some [], some 2⟩ := by
  decide

/-- C3 (code misbehaves): when the dictionary path exists but opening the
stream fails, the failure is reported (`read_error_reported`) and the
selection/scoring stage is skipped (`scoring_ran = false`, no prompt, no
errors), but `main` falls through to `return 0`: the exit code is 0, not
1 as the claim states. -/
theorem C3_read_failure_returns_zero :
    main_model 25 200 2 0 20000 true none rand0 'x' []
      = ⟨0, true, true, false, none, none⟩ := by
  decide

/-- C4: if argument parsing succeeded, `amount` is nonzero and
`min_length > max_length` with `max_length ≠ 0`, the run exits with code
1 and never attempts the dictionary load (`load_attempted = false`); the
outcome is the same for every state of the file system, so the check
precedes any file I/O. -/
theorem C4_minmax_exits_before_io
    (amount top min_length max_length dictionary_size : Nat)
    (path_exists : Bool) (file : Option (List Char)) (rand : Nat → Nat)
    (c : Char) (typed : List Char)
    (hamount : ¬ amount = 0) (hmm : min_length > max_length)
    (hmax : ¬ max_length = 0) :
    main_model amount top min_length max_length dictionary_size
        path_exists file rand c typed
      = ⟨1, false, false, false, none, none⟩ := by
  unfold main_model
  rw [if_neg hamount, if_neg hamount, if_pos ⟨hmm, hmax⟩]

/-- C4 witness: a concrete run with `min_length = 5 > 3 = max_length`
exits with code 1 without touching the (existing, readable) file. -/
theorem C4_minmax_exits_before_io_witness :
    main_model 25 200 5 3 20000 true (some ("a\n".toList)) rand0 'x' []
      = ⟨1, false, false, false, none, none⟩ :=
  C4_minmax_exits_before_io 25 200 5 3 20000 true (some ("a\n".toList))
    rand0 'x' [] (by decide) (by decide) (by decide)

/-- C5: the length filter keeps exactly the words with
`(len ≤ max_length ∨ max_length = 0) ∧ (len ≥ min_length ∨ min_length = 0)`,
and on the dictionary `["a","bb","ccc","dddd"]` with `top = 4`,
`min_length = 2`, `max_length = 3` the filtered pool is `["bb","ccc"]`. -/
theorem C5_filter_semantics :
    (∀ (min_length max_length : Nat) (w : Word),
      filter_function min_length max_length w = true
        ↔ ((w.length ≤ max_length ∨ max_length = 0)
            ∧ (w.length ≥ min_length ∨ min_length = 0)))
    ∧ ((["a", "bb", "ccc", "dddd"].map String.toList).take 4).filter
        (filter_function 2 3) = ["bb", "ccc"].map String.toList := by
  constructor
  · intro min_length max_length w
    simp [filter_function]
  · decide

/-- C6: the positional term compares, for each index `i` from 1 to
`min(len(Prompt), len(Typed)+1) - 1`, `Prompt[i]` against `Typed[i-1]`,
one error per mismatch, and performs no comparison outside that range:
the fold over `zip(filtered | drop(1), buffer)` counts exactly the
mismatches at those indices. -/
theorem C6_positional_range (P T : List Char) :
    positional_term P T
      = (List.range' 1 (min P.length (T.length + 1) - 1)).countP
          (fun i => report_error (char_at P i) (char_at T (i - 1))) := by
  rw [List.range'_eq_map_range, List.countP_map]
  have hmin : min P.length (T.length + 1) - 1 = min (P.length - 1) T.length := by
    omega
  rw [hmin]
  unfold positional_term
  rw [zip_countP_eq_range_countP]
  have hlen : (P.drop 1).length = P.length - 1 := by simp
  rw [hlen]
  apply List.countP_congr
  intro i hi
  simp [Function.comp, char_at_drop_one, char_at_tail, Nat.add_comm 1 i]

/-- C7: for any non-empty prompt, when the discarded first keystroke is
the prompt's first character and the typed line is the prompt without its
first character, the reported error count is 0 (the concrete spec
scenario Prompt = "cat dog", first char 'c', Typed = "at dog" is the
witness below). -/
theorem C7_perfect_typing_zero_errors (P : Word) (h : ¬ P = []) :
    score P (char_at P 0) (P.drop 1) = 0 := by
  have hpos : 1 ≤ P.length := by
    cases P with
    | nil => exact absurd rfl h
    | cons c cs => simp
  unfold score
  have h0 : report_error (char_at P 0) (char_at P 0) = false := by
    simp [report_error]
  rw [h0, if_neg (by simp)]
  have hlen : (P.drop 1).length = P.length - 1 := by simp
  rw [hlen]
  have h1 : length_error P.length (P.length - 1) = 0 := by
    unfold length_error
    rw [if_neg (by omega)]
    omega
  rw [h1]
  unfold positional_term
  rw [zip_self_countP]

/-- C7 witness: the spec's concrete scenario, prompt "cat dog" typed
perfectly after the discarded 'c'. -/
theorem C7_perfect_typing_zero_errors_witness :
    score ("cat dog".toList) 'c' ("at dog".toList) = 0 :=
  C7_perfect_typing_zero_errors ("cat dog".toList) (by decide)

/-- C8: `read_dictionary` is absent exactly when the stream cannot be
opened; for a file that opens it returns the getline lines in file order,
and a file encoding any list of newline-free lines (empty ones included)
is read back as exactly that list: empty lines are preserved, never
dropped, and never cause failure. -/
theorem C8_read_dictionary_lines :
    (∀ words : Nat, read_dictionary none words = none)
    ∧ (∀ (content : List Char) (words : Nat),
        (read_dictionary (some content) words).isSome = true)
    ∧ ∀ (lines : List Word) (words : Nat), (∀ l ∈ lines, '\n' ∉ l) →
        read_dictionary (some (encode_file lines)) words = some lines := by
  refine ⟨fun _ => rfl, fun _ _ => rfl, fun lines words h => ?_⟩
  show some (split_lines (encode_file lines)) = some lines
  rw [split_lines_encode lines h]

/-- C8 witness: a three-line file whose middle line is empty reads back
as the word list with the empty word preserved. -/
theorem C8_read_dictionary_lines_witness :
    read_dictionary (some (encode_file [['a', 'b'], [], ['c']])) 20000
      = some [['a', 'b'], [], ['c']] :=
  C8_read_dictionary_lines.2.2 [['a', 'b'], [], ['c']] 20000 (by decide)

/-- C9: when the length filter excludes every pooled word, the joined
prompt is empty, so index 0 is not within its characters
(`¬ 0 < length`); the scoring step still performs the first-character
comparison unconditionally, reading the out-of-range terminator
`nullChar` in place of a prompt character, so the whole score reduces to
that comparison against `nullChar` plus the length term. -/
theorem C9_empty_pool_prompt_oob
    (amount top min_length max_length : Nat) (dictionary : List Word)
    (rand : Nat → Nat) (c : Char) (typed : List Char)
    (h : (dictionary.take top).filter (filter_function min_length max_length)
          = []) :
    build_prompt rand amount top min_length max_length dictionary = []
    ∧ ¬ 0 < (build_prompt rand amount top min_length max_length
              dictionary).length
    ∧ score (build_prompt rand amount top min_length max_length dictionary)
          c typed
        = (if report_error nullChar c then 1 else 0) + (typed.length + 1) := by
  have hp : build_prompt rand amount top min_length max_length dictionary
      = [] := by
    unfold build_prompt
    rw [h]
    cases amount <;> rfl
  refine ⟨hp, ?_, ?_⟩
  · rw [hp]
    simp
  · rw [hp]
    unfold score char_at length_error positional_term
    simp

/-- C9 witness: a one-word dictionary whose only word ("dddd") fails the
2..3 length filter leaves an empty prompt, and scoring against the empty
prompt compares the keystroke 'x' with the terminator. -/
theorem C9_empty_pool_prompt_oob_witness :
    build_prompt rand0 25 1 2 3 [['d', 'd', 'd', 'd']] = []
    ∧ ¬ 0 < (build_prompt rand0 25 1 2 3 [['d', 'd', 'd', 'd']]).length
    ∧ score (build_prompt rand0 25 1 2 3 [['d', 'd', 'd', 'd']]) 'x' []
        = (if report_error nullChar 'x' then 1 else 0)
          + (List.length ([] : List Char) + 1) :=
  C9_empty_pool_prompt_oob 25 1 2 3 [['d', 'd', 'd', 'd']] rand0 'x' []
    (by decide)

/-- C10: for every dictionary, flag values and RNG stream, the sampled
words form an order-preserving subsequence (`List.Sublist`) of the
filtered pool, and hence of the dictionary itself: the prompt lists the
chosen words in the relative order they have in the dictionary head. -/
theorem C10_sample_ordered_subsequence (rand : Nat → Nat)
    (amount top min_length max_length : Nat) (dictionary : List Word) :
    (sample rand amount
        ((dictionary.take top).filter
          (filter_function min_length max_length))).Sublist
      ((dictionary.take top).filter (filter_function min_length max_length))
    ∧ (sample rand amount
        ((dictionary.take top).filter
          (filter_function min_length max_length))).Sublist
      dictionary := by
  have h1 := sample_go_sublist rand 0 amount
    ((dictionary.take top).filter (filter_function min_length max_length))
  exact ⟨h1, h1.trans ((List.filter_sublist _).trans
    (List.take_sublist top dictionary))⟩

end Typer
